import Mathlib

/-!
Verification of the device-communication and image-preparation pipeline of the
AceMagic S1 LCD/LED Home Assistant integration.

The Python sources are embedded shallowly:

* pixel values and bytes are `Nat` with explicit masks (`&&& 0xFF`, `% 256`);
* PIL images are pixel functions `Nat → Nat → RGB`;
* byte buffers are `List Nat`;
* stateful coordinator code becomes explicit state passing, and the
  asynchronous send/update interleaving becomes a step relation.

Each definition names the Python function it was translated from
(`custom_components/acemagic_lcd_led/...`).
-/

/-- From `const.py`: `Orientation.PORTRAIT = 0x02` (170x320). -/
def Orientation_PORTRAIT : Nat := 0x02

/-- From `const.py`: `Orientation.LANDSCAPE = 0x01` (320x170). -/
def Orientation_LANDSCAPE : Nat := 0x01

/-- From `const.py`: `SIGNATURE_CONTROL = 0xFA`. -/
def SIGNATURE_CONTROL : Nat := 0xFA

/-- From `const.py` `get_display_size`: landscape is (320, 170), anything else (portrait) is (170, 320). -/
def get_display_size (orientation : Nat) : Nat × Nat :=
  if orientation = Orientation_LANDSCAPE then (320, 170) else (170, 320)

/-- An RGB888 pixel: (r, g, b), each channel a byte. -/
abbrev RGB := Nat × Nat × Nat

/-- From `coordinator.py` `rgb888_to_rgb565` (lines 45-56): quantize to 5/6/5, pack,
swap the two bytes, and emit with `to_bytes(2, 'big')`.  For a value below
2^16 Python's `to_bytes(2, 'big')` yields `[v >> 8, v & 0xFF]`. -/
def rgb888_to_rgb565 (r g b : Nat) : List Nat :=
  let r5 := (r >>> 3) &&& 0x1F
  let g6 := (g >>> 2) &&& 0x3F
  let b5 := (b >>> 3) &&& 0x1F
  let color := (r5 <<< 11) ||| (g6 <<< 5) ||| b5
  let color_swapped := ((color &&& 0xFF) <<< 8) ||| ((color >>> 8) &&& 0xFF)
  [color_swapped >>> 8, color_swapped &&& 0xFF]

/-- Loop body shared by both traversal branches of `coordinator.py`
`pil_image_to_rgb565` (lines 84-93 and 101-110) and of
`_format_image_for_device` (lines 461-468 and 479-486): quantize one pixel to
5/6/5, pack, and emit high byte then low byte. -/
def encodePixel (p : RGB) : List Nat :=
  let r5 := (p.1 >>> 3) &&& 0x1F
  let g6 := (p.2.1 >>> 2) &&& 0x3F
  let b5 := (p.2.2 >>> 3) &&& 0x1F
  let color := (r5 <<< 11) ||| (g6 <<< 5) ||| b5
  [(color >>> 8) &&& 0xFF, color &&& 0xFF]

/-- From `coordinator.py` `pil_image_to_rgb565` (lines 59-113), with the image as a
pixel function.  `orientation == Orientation.PORTRAIT.value` (0x02) iterates
`for x in range(width-1, -1, -1): for y in range(height)`; any other
orientation iterates `for y in range(height): for x in range(width)`. -/
def pil_image_to_rgb565 (pixels : Nat → Nat → RGB) (width height orientation : Nat) : List Nat :=
  if orientation = Orientation_PORTRAIT then
    ((List.range width).reverse).flatMap (fun x =>
      (List.range height).flatMap (fun y => encodePixel (pixels x y)))
  else
    (List.range height).flatMap (fun y =>
      (List.range width).flatMap (fun x => encodePixel (pixels x y)))

/-- From `coordinator.py` `_format_image_for_device` (lines 436-488): the branch on
`orientation == 0x01` iterates rows top-to-bottom, the other branch iterates
columns from the last one down. -/
def format_image_for_device (pixels : Nat → Nat → RGB) (width height orientation : Nat) : List Nat :=
  if orientation = 0x01 then
    (List.range height).flatMap (fun y =>
      (List.range width).flatMap (fun x => encodePixel (pixels x y)))
  else
    ((List.range width).reverse).flatMap (fun x =>
      (List.range height).flatMap (fun y => encodePixel (pixels x y)))

/-- Mode A scan order as the spec words it: rows top-to-bottom, within each
row columns left-to-right. -/
def scanOrderModeA (width height : Nat) : List (Nat × Nat) :=
  (List.range height).flatMap (fun y => (List.range width).map (fun x => (x, y)))

/-- Mode B scan order as the spec words it: columns from the last column down
to the first, within each column rows top-to-bottom. -/
def scanOrderModeB (width height : Nat) : List (Nat × Nat) :=
  ((List.range width).reverse).flatMap (fun x =>
    (List.range height).map (fun y => (x, y)))

/-- From `coordinator.py` `_send_control_packet` (lines 537-563): the five bytes
written to the serial port. -/
def send_control_packet (theme intensity speed : Nat) : List Nat :=
  let total := SIGNATURE_CONTROL + theme + intensity + speed
  let checksum := total &&& 0xFF
  [SIGNATURE_CONTROL, theme, intensity, speed, checksum]

/- ### Arithmetic bridges for the bit-level operations -/

theorem and_mask_eq_mod (n k : Nat) : n &&& (2 ^ k - 1) = n % 2 ^ k :=
  Nat.and_pow_two_sub_one_eq_mod n k

theorem and_31_eq (n : Nat) : n &&& 31 = n % 32 := and_mask_eq_mod n 5

theorem and_63_eq (n : Nat) : n &&& 63 = n % 64 := and_mask_eq_mod n 6

theorem and_255_eq (n : Nat) : n &&& 255 = n % 256 := and_mask_eq_mod n 8

theorem shiftr3_eq (n : Nat) : n >>> 3 = n / 8 := Nat.shiftRight_eq_div_pow n 3

theorem shiftr2_eq (n : Nat) : n >>> 2 = n / 4 := Nat.shiftRight_eq_div_pow n 2

theorem shiftr8_eq (n : Nat) : n >>> 8 = n / 256 := Nat.shiftRight_eq_div_pow n 8

theorem shiftr11_eq (n : Nat) : n >>> 11 = n / 2048 := Nat.shiftRight_eq_div_pow n 11

theorem shiftr5_eq (n : Nat) : n >>> 5 = n / 32 := Nat.shiftRight_eq_div_pow n 5

/-- Disjoint bitwise or is addition: `2^i * a ||| b = 2^i * a + b` for `b < 2^i`. -/
theorem lor_disjoint (i a b : Nat) (hb : b < 2 ^ i) : 2 ^ i * a ||| b = 2 ^ i * a + b :=
  (Nat.mul_add_lt_is_or hb a).symm

/-- Packing three disjoint 5/6/5 fields with `<<<` and `|||` is plain arithmetic. -/
theorem pack565_eq (r5 g6 b5 : Nat) (hg : g6 < 64) (hb : b5 < 32) :
    (r5 <<< 11) ||| (g6 <<< 5) ||| b5 = r5 * 2048 + g6 * 32 + b5 := by
  rw [Nat.shiftLeft_eq, Nat.shiftLeft_eq]
  have h1 : (r5 * 2 ^ 11) ||| (g6 * 2 ^ 5) = r5 * 2 ^ 11 + g6 * 2 ^ 5 := by
    have := lor_disjoint 11 r5 (g6 * 2 ^ 5) (by omega)
    rw [Nat.mul_comm (2 ^ 11) r5] at this
    exact this
  rw [h1]
  have h2 : r5 * 2 ^ 11 + g6 * 2 ^ 5 = 2 ^ 5 * (r5 * 64 + g6) := by ring
  rw [h2, lor_disjoint 5 (r5 * 64 + g6) b5 (by omega)]
  ring

/-- The packed 5/6/5 color of a pixel, in arithmetic form. -/
def packedColor (p : RGB) : Nat := (p.1 / 8) * 2048 + (p.2.1 / 4) * 32 + p.2.2 / 8

/-- For byte-valued channels the masks in the codec are no-ops and
`encodePixel` emits exactly the high byte then the low byte of the packed
5/6/5 color. -/
theorem encodePixel_eq (r g b : Nat) (hr : r < 256) (hg : g < 256) (hb : b < 256) :
    encodePixel (r, g, b) = [packedColor (r, g, b) / 256, packedColor (r, g, b) % 256] := by
  unfold encodePixel packedColor
  simp only [shiftr3_eq, shiftr2_eq, and_31_eq, and_63_eq]
  have hr5 : r / 8 % 32 = r / 8 := Nat.mod_eq_of_lt (by omega)
  have hg6 : g / 4 % 64 = g / 4 := Nat.mod_eq_of_lt (by omega)
  have hb5 : b / 8 % 32 = b / 8 := Nat.mod_eq_of_lt (by omega)
  rw [hr5, hg6, hb5, pack565_eq _ _ _ (by omega) (by omega)]
  set c := (r / 8) * 2048 + (g / 4) * 32 + b / 8 with hcdef
  have hc : c < 65536 := by omega
  simp only [shiftr8_eq, and_255_eq]
  rw [Nat.mod_eq_of_lt (a := c / 256) (by omega)]

/-- Same normalization for the one-off helper: it emits low byte first. -/
theorem rgb888_to_rgb565_eq (r g b : Nat) (hr : r < 256) (hg : g < 256) (hb : b < 256) :
    rgb888_to_rgb565 r g b = [packedColor (r, g, b) % 256, packedColor (r, g, b) / 256] := by
  unfold rgb888_to_rgb565 packedColor
  simp only [shiftr3_eq, shiftr2_eq, and_31_eq, and_63_eq]
  have hr5 : r / 8 % 32 = r / 8 := Nat.mod_eq_of_lt (by omega)
  have hg6 : g / 4 % 64 = g / 4 := Nat.mod_eq_of_lt (by omega)
  have hb5 : b / 8 % 32 = b / 8 := Nat.mod_eq_of_lt (by omega)
  rw [hr5, hg6, hb5, pack565_eq _ _ _ (by omega) (by omega)]
  set c := (r / 8) * 2048 + (g / 4) * 32 + b / 8 with hcdef
  have hc : c < 65536 := by omega
  simp only [shiftr8_eq, and_255_eq]
  rw [Nat.mod_eq_of_lt (a := c / 256) (by omega), Nat.shiftLeft_eq]
  have h2 : (c % 256) * 2 ^ 8 ||| c / 256 = (c % 256) * 2 ^ 8 + c / 256 := by
    have := lor_disjoint 8 (c % 256) (c / 256) (by omega)
    rw [Nat.mul_comm (2 ^ 8) (c % 256)] at this
    exact this
  rw [h2]
  have hp : (2 : Nat) ^ 8 = 256 := rfl
  rw [hp]
  simp only [List.cons.injEq, and_true]
  exact ⟨by omega, by omega⟩

/- ### C1 and C2: Pixel Codec emission and traversal order -/

/-- C1: for every byte-valued input pixel the Pixel Codec quantizes as
`r5 = r >> 3`, `g6 = g >> 2`, `b5 = b >> 3`, packs `(r5 << 11)|(g6 << 5)|b5`
and emits `(color >> 8) & 0xFF` then `color & 0xFF`, while the one-off helper
`rgb888_to_rgb565` emits the two bytes of the same 16-bit value in the
opposite order (low byte first). -/
theorem c1_pixel_codec_byte_order (r g b : Nat) (hr : r < 256) (hg : g < 256) (hb : b < 256) :
    encodePixel (r, g, b) =
      [(((r >>> 3) <<< 11 ||| (g >>> 2) <<< 5 ||| (b >>> 3)) >>> 8) &&& 0xFF,
       ((r >>> 3) <<< 11 ||| (g >>> 2) <<< 5 ||| (b >>> 3)) &&& 0xFF]
    ∧ rgb888_to_rgb565 r g b =
      [((r >>> 3) <<< 11 ||| (g >>> 2) <<< 5 ||| (b >>> 3)) &&& 0xFF,
       (((r >>> 3) <<< 11 ||| (g >>> 2) <<< 5 ||| (b >>> 3)) >>> 8) &&& 0xFF] := by
  have hpack : (r >>> 3) <<< 11 ||| (g >>> 2) <<< 5 ||| (b >>> 3) = packedColor (r, g, b) := by
    rw [shiftr3_eq, shiftr2_eq, shiftr3_eq,
      pack565_eq _ _ _ (by omega) (by omega)]
    rfl
  have hc : packedColor (r, g, b) < 65536 := by
    unfold packedColor; simp only; omega
  rw [hpack, shiftr8_eq, and_255_eq, and_255_eq,
    Nat.mod_eq_of_lt (a := packedColor (r, g, b) / 256) (by omega)]
  exact ⟨encodePixel_eq r g b hr hg hb, rgb888_to_rgb565_eq r g b hr hg hb⟩

/-- Closed instance of `c1_pixel_codec_byte_order` at pixel (250, 100, 10). -/
theorem c1_pixel_codec_byte_order_witness :
    encodePixel (250, 100, 10) =
      [(((250 >>> 3) <<< 11 ||| (100 >>> 2) <<< 5 ||| (10 >>> 3)) >>> 8) &&& 0xFF,
       ((250 >>> 3) <<< 11 ||| (100 >>> 2) <<< 5 ||| (10 >>> 3)) &&& 0xFF]
    ∧ rgb888_to_rgb565 250 100 10 =
      [((250 >>> 3) <<< 11 ||| (100 >>> 2) <<< 5 ||| (10 >>> 3)) &&& 0xFF,
       (((250 >>> 3) <<< 11 ||| (100 >>> 2) <<< 5 ||| (10 >>> 3)) >>> 8) &&& 0xFF] :=
  c1_pixel_codec_byte_order 250 100 10 (by decide) (by decide) (by decide)

/-- C2: under orientation code 0x01 both encoders traverse rows top-to-bottom
and columns left-to-right within each row; under code 0x02 both traverse
columns from the last down to the first and rows top-to-bottom within each
column. -/
theorem c2_scan_order (pixels : Nat → Nat → RGB) (w h : Nat) :
    (pil_image_to_rgb565 pixels w h 0x01
        = (scanOrderModeA w h).flatMap (fun p => encodePixel (pixels p.1 p.2))
      ∧ format_image_for_device pixels w h 0x01
        = (scanOrderModeA w h).flatMap (fun p => encodePixel (pixels p.1 p.2)))
    ∧ (pil_image_to_rgb565 pixels w h 0x02
        = (scanOrderModeB w h).flatMap (fun p => encodePixel (pixels p.1 p.2))
      ∧ format_image_for_device pixels w h 0x02
        = (scanOrderModeB w h).flatMap (fun p => encodePixel (pixels p.1 p.2))) := by
  have hA : (scanOrderModeA w h).flatMap (fun p => encodePixel (pixels p.1 p.2))
      = (List.range h).flatMap (fun y =>
          (List.range w).flatMap (fun x => encodePixel (pixels x y))) := by
    unfold scanOrderModeA
    rw [List.flatMap_assoc]
    refine List.flatMap_congr (fun y _ => ?_)
    rw [List.flatMap_map]
  have hB : (scanOrderModeB w h).flatMap (fun p => encodePixel (pixels p.1 p.2))
      = ((List.range w).reverse).flatMap (fun x =>
          (List.range h).flatMap (fun y => encodePixel (pixels x y))) := by
    unfold scanOrderModeB
    rw [List.flatMap_assoc]
    refine List.flatMap_congr (fun x _ => ?_)
    rw [List.flatMap_map]
  refine ⟨⟨?_, ?_⟩, ⟨?_, ?_⟩⟩
  · rw [hA]; rfl
  · rw [hA]; rfl
  · rw [hB]; rfl
  · rw [hB]; rfl

/- ### C4: lighting control packet -/

/-- C4: for theme, intensity, speed in 1..5 the serial lighting packet is the
five bytes `[0xFA, theme, intensity, speed, (0xFA+theme+intensity+speed) & 0xFF]`,
and theme=1, intensity=3, speed=2 yields `FA 01 03 02 00`. -/
theorem c4_control_packet (theme intensity speed : Nat)
    (ht1 : 1 ≤ theme) (ht5 : theme ≤ 5)
    (hi1 : 1 ≤ intensity) (hi5 : intensity ≤ 5)
    (hs1 : 1 ≤ speed) (hs5 : speed ≤ 5) :
    send_control_packet theme intensity speed
      = [0xFA, theme, intensity, speed, (0xFA + theme + intensity + speed) % 256]
    ∧ send_control_packet 1 3 2 = [0xFA, 0x01, 0x03, 0x02, 0x00] := by
  constructor
  · unfold send_control_packet SIGNATURE_CONTROL
    simp only [and_255_eq]
  · rfl

/-- Closed instance of `c4_control_packet` at theme=1, intensity=3, speed=2. -/
theorem c4_control_packet_witness :
    send_control_packet 1 3 2 = [0xFA, 1, 3, 2, (0xFA + 1 + 3 + 2) % 256]
    ∧ send_control_packet 1 3 2 = [0xFA, 0x01, 0x03, 0x02, 0x00] :=
  c4_control_packet 1 3 2 (by decide) (by decide) (by decide) (by decide) (by decide) (by decide)

/- ### C3 and C6: chunked image packets (`usb_manager.py` `send_image_packet`, lines 77-123) -/

/-- From `usb_manager.py` `send_image_packet`: the sequence of (header, unpadded
chunk) pairs produced for one bitmap.  Python's `for i in range(0, data_len,
chunk_size)` visits `i = k * chunk_size` for `k < ceil(data_len /
chunk_size)`, and `-(-data_len // chunk_size)` is the same ceiling division,
written `(data_len + chunk_size - 1) / chunk_size` on naturals.  Each
iteration slices `chunk = image_data[i:i+chunk_size]` and builds the header
`[0x55, 0xa3, frame_code, i // chunk_size + 1, 0, (i // chunk_size % 16) *
0x10, 0, 0x10]`. -/
def send_image_packet (image_data : List Nat) : List (List Nat × List Nat) :=
  let chunk_size := 4096
  let data_len := image_data.length
  let num_chunk := (data_len + chunk_size - 1) / chunk_size - 1
  (List.range ((data_len + chunk_size - 1) / chunk_size)).map (fun k =>
    let i := k * chunk_size
    let chunk := (image_data.drop i).take chunk_size
    let frame_code := if i = 0 then 0xF0 else if i = num_chunk * chunk_size then 0xF2 else 0xF1
    ([0x55, 0xA3, frame_code, i / chunk_size + 1, 0x00, ((i / chunk_size) % 16) * 0x10, 0x00, 0x10],
     chunk))

/-- From `usb_manager.py` `send_image_packet` lines 106-108: the on-wire packet is
the 8-byte header followed by the chunk zero-padded to 4096 bytes. -/
def image_packet_bytes (hdr chunk : List Nat) : List Nat :=
  hdr ++ chunk ++ List.replicate (4096 - chunk.length) 0

theorem getD_map_range {α : Type} (f : Nat → α) (n k : Nat) (d : α) (hk : k < n) :
    ((List.range n).map f).getD k d = f k := by
  rw [List.getD_eq_getElem _ _ (by simpa using hk)]
  simp

theorem send_image_packet_length (data : List Nat) :
    (send_image_packet data).length = (data.length + 4096 - 1) / 4096 := by
  unfold send_image_packet
  simp

theorem send_image_packet_getD (data : List Nat) (k : Nat)
    (hk : k < (data.length + 4096 - 1) / 4096) :
    (send_image_packet data).getD k ([], []) =
      ([0x55, 0xA3,
        (if k * 4096 = 0 then 0xF0
         else if k * 4096 = ((data.length + 4096 - 1) / 4096 - 1) * 4096 then 0xF2
         else 0xF1),
        k * 4096 / 4096 + 1, 0x00, (k * 4096 / 4096 % 16) * 0x10, 0x00, 0x10],
       (data.drop (k * 4096)).take 4096) := by
  unfold send_image_packet
  exact getD_map_range _ _ _ _ hk

/-- C3: each chunk at byte offset `i` carries frame code 0xF0 when `i = 0`,
0xF2 when `i = (ceil(len/4096) - 1) * 4096` (and `i ≠ 0`), 0xF1 otherwise;
`chunk_index` is `i / 4096 + 1`; `counter_byte` is
`((chunk_index - 1) % 16) * 0x10`; and a single-chunk bitmap gets 0xF0. -/
theorem c3_image_chunk_headers (data : List Nat) (k : Nat)
    (hk : k < (data.length + 4096 - 1) / 4096) :
    (k * 4096 = 0 → (((send_image_packet data).getD k ([], [])).1).getD 2 0 = 0xF0)
    ∧ (k * 4096 ≠ 0 → k * 4096 = ((data.length + 4096 - 1) / 4096 - 1) * 4096 →
        (((send_image_packet data).getD k ([], [])).1).getD 2 0 = 0xF2)
    ∧ (k * 4096 ≠ 0 → k * 4096 ≠ ((data.length + 4096 - 1) / 4096 - 1) * 4096 →
        (((send_image_packet data).getD k ([], [])).1).getD 2 0 = 0xF1)
    ∧ (((send_image_packet data).getD k ([], [])).1).getD 3 0 = k * 4096 / 4096 + 1
    ∧ (((send_image_packet data).getD k ([], [])).1).getD 5 0
        = ((k * 4096 / 4096 + 1 - 1) % 16) * 0x10
    ∧ ((data.length + 4096 - 1) / 4096 = 1 →
        (((send_image_packet data).getD k ([], [])).1).getD 2 0 = 0xF0) := by
  rw [send_image_packet_getD data k hk]
  refine ⟨?_, ?_, ?_, ?_, ?_, ?_⟩
  · intro h0
    simp [h0]
  · intro h0 hlast
    have hk0 : ¬ k = 0 := by omega
    have hl : k = (data.length + 4095) / 4096 - 1 := by omega
    simp [hk0, hl]
    omega
  · intro h0 hlast
    have hk0 : ¬ k = 0 := by omega
    have hl : ¬ k = (data.length + 4095) / 4096 - 1 := by omega
    simp [hk0, hl]
  · rfl
  · simp
  · intro hone
    have hk0 : k = 0 := by omega
    simp [hk0]

/-- Closed instance of `c3_image_chunk_headers`: a 5000-byte bitmap has two
chunks; the first gets frame code 0xF0 and index 1, the second 0xF2 and
index 2. -/
theorem c3_image_chunk_headers_witness :
    (0 * 4096 = 0 →
      (((send_image_packet (List.replicate 5000 7)).getD 0 ([], [])).1).getD 2 0 = 0xF0)
    ∧ (0 * 4096 ≠ 0 →
        0 * 4096 = (((List.replicate 5000 7 : List Nat).length + 4096 - 1) / 4096 - 1) * 4096 →
        (((send_image_packet (List.replicate 5000 7)).getD 0 ([], [])).1).getD 2 0 = 0xF2)
    ∧ (0 * 4096 ≠ 0 →
        0 * 4096 ≠ (((List.replicate 5000 7 : List Nat).length + 4096 - 1) / 4096 - 1) * 4096 →
        (((send_image_packet (List.replicate 5000 7)).getD 0 ([], [])).1).getD 2 0 = 0xF1)
    ∧ (((send_image_packet (List.replicate 5000 7)).getD 0 ([], [])).1).getD 3 0
        = 0 * 4096 / 4096 + 1
    ∧ (((send_image_packet (List.replicate 5000 7)).getD 0 ([], [])).1).getD 5 0
        = ((0 * 4096 / 4096 + 1 - 1) % 16) * 0x10
    ∧ (((List.replicate 5000 7 : List Nat).length + 4096 - 1) / 4096 = 1 →
        (((send_image_packet (List.replicate 5000 7)).getD 0 ([], [])).1).getD 2 0 = 0xF0) :=
  c3_image_chunk_headers (List.replicate 5000 7) 0 (by rw [List.length_replicate]; decide)

/-- C6 counterexample: for the 320x170 bitmap of 108800 bytes the last
chunk's unpadded payload is `108800 - 26 * 4096 = 2304` bytes, not the 4864
bytes stated in the claim. -/
theorem c6_scenario_b_counterexample :
    ((send_image_packet (List.replicate 108800 0)).getD 26 ([], [])).2.length ≠ 4864 := by
  rw [send_image_packet_getD (List.replicate 108800 0) 26 (by rw [List.length_replicate]; decide)]
  rw [List.length_take, List.length_drop, List.length_replicate]
  omega

/-- C6 (amended): the 108800-byte bitmap is split into ceil(108800/4096) = 27
chunks and the last chunk's unpadded payload length is 108800 - 26*4096 =
2304 bytes. -/
theorem c6_scenario_b_amended :
    (send_image_packet (List.replicate 108800 0)).length = 27
    ∧ ((send_image_packet (List.replicate 108800 0)).getD 26 ([], [])).2.length = 2304 := by
  constructor
  · rw [send_image_packet_length, List.length_replicate]
  · rw [send_image_packet_getD (List.replicate 108800 0) 26 (by rw [List.length_replicate]; decide)]
    rw [List.length_take, List.length_drop, List.length_replicate]
    omega

/- ### C7 and C8: Text Compositor (`text_config.py`) -/

/-- From `text_config.py` `TextElement` (lines 58-118).  The Python fields
`prefix` and `suffix` are named `pre` and `suf` here.  Values and templates
are strings; `is_static`/`static_value` mark fixed text. -/
structure TextElement where
  entity_id : String
  x : Nat
  y : Nat
  font_size : Nat
  color : RGB
  alignment : Nat
  pre : String
  suf : String
  format : String
  font_path : String
  is_static : Bool
  static_value : String
deriving DecidableEq

/-- From `text_config.py` `TextElement.get_text` (lines 120-135).  The Python
`format.format(value=...)` call is an external operation modelled by the
oracle `fmtApply`, returning `none` exactly when substitution raises.  The
`try` body uses `static_value` when `is_static and static_value` is truthy,
else the looked-up value; the `except` handler re-checks the same condition
and wraps the corresponding literal in `prefix`/`suffix`. -/
def get_text (fmtApply : String → String → Option String) (e : TextElement)
    (value : String) : String :=
  if e.is_static = true ∧ e.static_value ≠ "" then
    match fmtApply e.format e.static_value with
    | some formatted_value => e.pre ++ formatted_value ++ e.suf
    | none => e.pre ++ e.static_value ++ e.suf
  else
    match fmtApply e.format value with
    | some formatted_value => e.pre ++ formatted_value ++ e.suf
    | none => e.pre ++ value ++ e.suf

/-- One drawing action recorded by the renderer: an `mdi:` icon glyph or a
text draw at (x, y) with the element's size and color. -/
structure DrawOp where
  isIcon : Bool
  x : Nat
  y : Nat
  size : Nat
  color : RGB
  text : String
deriving DecidableEq

/-- From `text_config.py` `TextRenderer.render_text_on_image` (lines 300-370),
with PIL drawing abstracted: the result is the (copied) base image paired
with the list of successful draw actions, in element order.  An element
whose `entity_id` has no `_sensor_values` entry is skipped (line 366); an
empty display string is skipped (`if text:`); a drawing exception (oracle
`drawFails`) skips just that element (lines 362-365); `text[:4] == "mdi:"`
selects the icon path. -/
def render_text_on_image {α : Type} (fmtApply : String → String → Option String)
    (drawFails : TextElement → String → Bool)
    (elements : List TextElement) (sensor_values : String → Option String)
    (base_image : α) : α × List DrawOp :=
  (base_image,
   elements.filterMap (fun e =>
     match sensor_values e.entity_id with
     | none => none
     | some v =>
       let text := get_text fmtApply e v
       if text = "" then none
       else if drawFails e text then none
       else some { isIcon := text.take 4 == "mdi:", x := e.x, y := e.y,
                   size := e.font_size, color := e.color, text := text }))

/-- From `text_config.py` `TextRenderer.add_text_element` (lines 206-219): a
duplicate `entity_id` is rejected (returns `False`) without touching the
store; otherwise the element is inserted and `True` returned.  The Python
`Dict` is modelled as an insertion-ordered association list. -/
def add_text_element (store : List (String × TextElement)) (element : TextElement) :
    Bool × List (String × TextElement) :=
  if (store.lookup element.entity_id).isSome then (false, store)
  else (true, store ++ [(element.entity_id, element)])

theorem filterMap_filter_of_none {β γ : Type} (f : β → Option γ) (p : β → Bool)
    (h : ∀ e, p e = false → f e = none) :
    ∀ l : List β, l.filterMap f = (l.filter p).filterMap f := by
  intro l
  induction l with
  | nil => rfl
  | cons e es ih =>
    cases hp : p e
    · simp [List.filterMap_cons, List.filter_cons, hp, h e hp, ih]
    · simp only [List.filterMap_cons, List.filter_cons, hp, if_true]
      cases hf : f e <;> simp [ih]

/-- C7: rendering skips exactly the elements with no recorded sensor value
(the others are still rendered), a failing template substitution falls back
to the literal value wrapped in prefix/suffix, and the base image is always
returned. -/
theorem c7_render_error_handling {α : Type}
    (fmtApply : String → String → Option String)
    (drawFails : TextElement → String → Bool)
    (elements : List TextElement) (sensor_values : String → Option String)
    (base_image : α) :
    (render_text_on_image fmtApply drawFails elements sensor_values base_image
      = render_text_on_image fmtApply drawFails
          (elements.filter (fun e => (sensor_values e.entity_id).isSome))
          sensor_values base_image)
    ∧ (∀ e v, fmtApply e.format v = none →
        ¬(e.is_static = true ∧ e.static_value ≠ "") →
        get_text fmtApply e v = e.pre ++ v ++ e.suf)
    ∧ (∀ e v, fmtApply e.format e.static_value = none →
        e.is_static = true ∧ e.static_value ≠ "" →
        get_text fmtApply e v = e.pre ++ e.static_value ++ e.suf)
    ∧ (render_text_on_image fmtApply drawFails elements sensor_values base_image).1
        = base_image := by
  refine ⟨?_, ?_, ?_, rfl⟩
  · unfold render_text_on_image
    refine congrArg _ ?_
    refine filterMap_filter_of_none _ _ ?_ elements
    intro e hp
    cases hv : sensor_values e.entity_id
    · rfl
    · rw [hv] at hp
      simp at hp
  · intro e v hfmt hstat
    unfold get_text
    rw [if_neg hstat, hfmt]
  · intro e v hfmt hstat
    unfold get_text
    rw [if_pos hstat, hfmt]

/-- A dynamic text element bound to entity "a" with a bracket wrapping. -/
def elemA : TextElement :=
  { entity_id := "a", x := 5, y := 6, font_size := 16, color := (255, 255, 255),
    alignment := 0, pre := "<", suf := ">", format := "{value}",
    font_path := "", is_static := false, static_value := "" }

/-- A second element with the same entity key "a" but a different position. -/
def elemB : TextElement :=
  { entity_id := "a", x := 9, y := 9, font_size := 20, color := (0, 0, 0),
    alignment := 0, pre := "", suf := "", format := "{value}",
    font_path := "", is_static := false, static_value := "" }

/-- Closed instance of `c7_render_error_handling`: a failing substitution on
the dynamic element `elemA` with value "42" yields the literal fallback. -/
theorem c7_render_error_handling_witness :
    get_text (fun _ _ => none) elemA "42" = elemA.pre ++ "42" ++ elemA.suf :=
  (c7_render_error_handling (α := Unit) (fun _ _ => none) (fun _ _ => false)
      [] (fun _ => none) ()).2.1 elemA "42" rfl (by decide)

/-- C8: adding a second element under an already-used entity key fails, the
element stored under that key is still the one stored by the first add, and
the failed add leaves the whole store unchanged. -/
theorem c8_duplicate_add_fails (store : List (String × TextElement))
    (e1 e2 : TextElement)
    (hkey : e2.entity_id = e1.entity_id)
    (hfresh : store.lookup e1.entity_id = none) :
    (add_text_element store e1).1 = true
    ∧ (add_text_element (add_text_element store e1).2 e2).1 = false
    ∧ (add_text_element (add_text_element store e1).2 e2).2
        = (add_text_element store e1).2
    ∧ ((add_text_element (add_text_element store e1).2 e2).2).lookup e1.entity_id
        = some e1 := by
  have hstep1 : add_text_element store e1 = (true, store ++ [(e1.entity_id, e1)]) := by
    unfold add_text_element
    simp [hfresh]
  have hlook : (store ++ [(e1.entity_id, e1)]).lookup e1.entity_id = some e1 := by
    rw [List.lookup_append, hfresh]
    simp [List.lookup]
  have hstep2 : add_text_element (store ++ [(e1.entity_id, e1)]) e2
      = (false, store ++ [(e1.entity_id, e1)]) := by
    unfold add_text_element
    rw [hkey]
    simp [hlook]
  have h2 : (add_text_element store e1).2 = store ++ [(e1.entity_id, e1)] := by
    rw [hstep1]
  have h1t : (add_text_element store e1).1 = true := by rw [hstep1]
  have h21 : (add_text_element (store ++ [(e1.entity_id, e1)]) e2).1 = false := by
    rw [hstep2]
  have h22 : (add_text_element (store ++ [(e1.entity_id, e1)]) e2).2
      = store ++ [(e1.entity_id, e1)] := by
    rw [hstep2]
  refine ⟨h1t, ?_, ?_, ?_⟩
  · rw [h2]
    exact h21
  · rw [h2, h22]
  · rw [h2, h22]
    exact hlook

/-- Closed instance of `c8_duplicate_add_fails` on the empty store with
`elemA` then `elemB` (same entity key "a"). -/
theorem c8_duplicate_add_fails_witness :
    (add_text_element [] elemA).1 = true
    ∧ (add_text_element (add_text_element [] elemA).2 elemB).1 = false
    ∧ (add_text_element (add_text_element [] elemA).2 elemB).2
        = (add_text_element [] elemA).2
    ∧ ((add_text_element (add_text_element [] elemA).2 elemB).2).lookup elemA.entity_id
        = some elemA :=
  c8_duplicate_add_fails [] elemA elemB rfl rfl

/- ### C9: pending-update flag across an in-flight image send (`coordinator.py`) -/

/-- The coordinator state relevant to image-send arbitration: `_image_data`
(abstracted to a frame id), `_image_update_pending`, `_is_sending_image`,
plus the bytes currently being transmitted (`in_flight`, the argument passed
to `usb_manager.send_image_packet`) and the last successfully sent frame. -/
structure CoordState where
  image_data : Nat
  image_update_pending : Bool
  is_sending_image : Bool
  in_flight : Option Nat
  last_sent : Option Nat
deriving DecidableEq

/-- One cooperative-scheduling step of the coordinator's image path, with the
`await` inside `_send_image_packet_internal` as the suspension point:

* `update` — `_update_display_image` (lines 416-431): stores a new frame in
  `_image_data` and sets `_image_update_pending := True` (both branches of
  the `_is_sending_image` check leave the flag set);
* `send_start` — `_send_image_packet` (lines 565-575) and the entry of
  `_send_image_packet_internal` (lines 577-591): requires no send in flight
  and a pending update, sets `_is_sending_image` and hands the current
  `_image_data` to the USB transfer;
* `send_complete` — the success path (lines 593-596) followed by the
  `finally` (line 575): records the sent frame, unconditionally sets
  `_image_update_pending := False` and `_is_sending_image := False`. -/
inductive CoordStep : CoordState → CoordState → Prop where
  | update (s : CoordState) (f : Nat) :
      CoordStep s { s with image_data := f, image_update_pending := true }
  | send_start (s : CoordState) (h1 : s.is_sending_image = false)
      (h2 : s.image_update_pending = true) :
      CoordStep s { s with is_sending_image := true, in_flight := some s.image_data }
  | send_complete (s : CoordState) (f : Nat) (h : s.in_flight = some f) :
      CoordStep s { s with is_sending_image := false, in_flight := none,
                           image_update_pending := false, last_sent := some f }

/-- C9 counterexample: a concrete three-step execution.  Frame 1 is pending
and its send starts; frame 2 arrives while the send is in flight; the send
completes.  The completed send clears the pending flag (`_image_update_pending
= False` on line 595 is unconditional) even though the newer frame 2 was
never transmitted (`last_sent = some 1`), refuting the claim that the flag
stays set when a newer update arrived during the send. -/
theorem c9_pending_flag_counterexample :
    CoordStep ⟨1, true, false, none, none⟩ ⟨1, true, true, some 1, none⟩
    ∧ CoordStep ⟨1, true, true, some 1, none⟩ ⟨2, true, true, some 1, none⟩
    ∧ CoordStep ⟨2, true, true, some 1, none⟩ ⟨2, false, false, none, some 1⟩
    ∧ (⟨2, false, false, none, some 1⟩ : CoordState).image_data
        ≠ (⟨2, false, false, none, some 1⟩ : CoordState).last_sent.getD 0
    ∧ (⟨2, false, false, none, some 1⟩ : CoordState).image_update_pending = false := by
  refine ⟨?_, ?_, ?_, by decide, rfl⟩
  · exact CoordStep.send_start _ rfl rfl
  · exact CoordStep.update _ 2
  · exact CoordStep.send_complete _ 1 rfl

/-- C9 (amended): a completed image send clears the pending-update flag
unconditionally — also when a newer update arrived while the send was in
flight — so the newer frame is only re-sent once a further update raises the
flag again. -/
theorem c9_pending_flag_amended (s : CoordState) (f : Nat) (h : s.in_flight = some f) :
    CoordStep s { s with is_sending_image := false, in_flight := none,
                         image_update_pending := false, last_sent := some f }
    ∧ ({ s with is_sending_image := false,
                in_flight := none,
                image_update_pending := false,
                last_sent := some f } : CoordState).image_update_pending = false :=
  ⟨CoordStep.send_complete s f h, rfl⟩

/-- Closed instance of `c9_pending_flag_amended` at a state whose in-flight
frame 1 is older than the stored frame 2. -/
theorem c9_pending_flag_amended_witness :
    CoordStep ⟨2, true, true, some 1, none⟩
      { (⟨2, true, true, some 1, none⟩ : CoordState) with
        is_sending_image := false, in_flight := none,
        image_update_pending := false, last_sent := some 1 }
    ∧ ({ (⟨2, true, true, some 1, none⟩ : CoordState) with
         is_sending_image := false,
         in_flight := none,
         image_update_pending := false,
         last_sent := some 1 } : CoordState).image_update_pending = false :=
  c9_pending_flag_amended ⟨2, true, true, some 1, none⟩ 1 rfl

/- ### C10: `set_pixel` builds the frame from a fresh black background -/

/-- The coordinator state relevant to `set_pixel`: current orientation and
the RGB565 frame last stored by the `image_data` setter. -/
structure DisplayState where
  orientation : Nat
  image_data : List Nat
  image_update_pending : Bool

/-- From `coordinator.py` `set_pixel` (lines 276-314).  The caller coordinates
are given in landscape space; portrait orientation swaps them.  In range, a
fresh all-black image of the current display size is created with the single
pixel set, text is overlaid when text elements exist (the PIL rendering is
the oracle `overlay`), the result is formatted with
`_format_image_for_device`, and stored through the `image_data` setter
(lines 265-274), which accepts only a correctly sized, changed frame. -/
def set_pixel (overlay : (Nat → Nat → RGB) → Nat → Nat → Nat → RGB)
    (has_text_elements : Bool) (st : DisplayState) (x y r g b : Nat) : DisplayState :=
  let width := (get_display_size st.orientation).1
  let height := (get_display_size st.orientation).2
  let target_x := if st.orientation = Orientation_PORTRAIT then y else x
  let target_y := if st.orientation = Orientation_PORTRAIT then x else y
  if target_x < width ∧ target_y < height then
    let img : Nat → Nat → RGB := fun px py =>
      if px = target_x ∧ py = target_y then (r, g, b) else (0, 0, 0)
    let img2 := if has_text_elements then overlay img st.orientation else img
    let rgb565_data := format_image_for_device img2 width height st.orientation
    if rgb565_data.length = width * height * 2 ∧ rgb565_data ≠ st.image_data then
      { st with image_data := rgb565_data, image_update_pending := true }
    else st
  else st

/-- The candidate frame `set_pixel` submits, as the claim describes it: a
freshly created all-black background of the display size holding only the
one orientation-mapped pixel, text overlay applied when configured, then
device formatting.  It takes no previous frame: it depends only on
orientation, coordinates, color and the text configuration. -/
def set_pixel_candidate (overlay : (Nat → Nat → RGB) → Nat → Nat → Nat → RGB)
    (has_text_elements : Bool) (orientation x y r g b : Nat) : List Nat :=
  let width := (get_display_size orientation).1
  let height := (get_display_size orientation).2
  let target_x := if orientation = Orientation_PORTRAIT then y else x
  let target_y := if orientation = Orientation_PORTRAIT then x else y
  let img : Nat → Nat → RGB := fun px py =>
    if px = target_x ∧ py = target_y then (r, g, b) else (0, 0, 0)
  format_image_for_device
    (if has_text_elements then overlay img orientation else img) width height orientation

/-- C10: for in-range orientation-mapped coordinates, the frame `set_pixel`
submits is exactly the candidate built from a fresh all-black single-pixel
background (plus any text overlay) — the previous frame only gates whether
the unchanged-content submission is skipped, its pixel content is never part
of the new frame. -/
theorem c10_set_pixel_fresh_frame
    (overlay : (Nat → Nat → RGB) → Nat → Nat → Nat → RGB)
    (has_text_elements : Bool) (st : DisplayState) (x y r g b : Nat)
    (hin : (if st.orientation = Orientation_PORTRAIT then y else x)
             < (get_display_size st.orientation).1
         ∧ (if st.orientation = Orientation_PORTRAIT then x else y)
             < (get_display_size st.orientation).2) :
    (set_pixel overlay has_text_elements st x y r g b).image_data
      = (if (set_pixel_candidate overlay has_text_elements st.orientation x y r g b).length
              = (get_display_size st.orientation).1 * (get_display_size st.orientation).2 * 2
            ∧ set_pixel_candidate overlay has_text_elements st.orientation x y r g b
              ≠ st.image_data
         then set_pixel_candidate overlay has_text_elements st.orientation x y r g b
         else st.image_data) := by
  unfold set_pixel set_pixel_candidate
  rw [if_pos hin]
  by_cases hc : (set_pixel_candidate overlay has_text_elements st.orientation x y r g b).length
      = (get_display_size st.orientation).1 * (get_display_size st.orientation).2 * 2
    ∧ set_pixel_candidate overlay has_text_elements st.orientation x y r g b ≠ st.image_data
  · unfold set_pixel_candidate at hc
    rw [if_pos hc, if_pos hc]
  · unfold set_pixel_candidate at hc
    rw [if_neg hc, if_neg hc]

/-- Closed instance of `c10_set_pixel_fresh_frame` in landscape orientation
at pixel (5, 6). -/
theorem c10_set_pixel_fresh_frame_witness :
    (set_pixel (fun img _ => img) false ⟨1, [], false⟩ 5 6 250 100 10).image_data
      = (if (set_pixel_candidate (fun img _ => img) false
               (⟨1, [], false⟩ : DisplayState).orientation 5 6 250 100 10).length
              = (get_display_size (⟨1, [], false⟩ : DisplayState).orientation).1
                  * (get_display_size (⟨1, [], false⟩ : DisplayState).orientation).2 * 2
            ∧ set_pixel_candidate (fun img _ => img) false
                (⟨1, [], false⟩ : DisplayState).orientation 5 6 250 100 10
              ≠ (⟨1, [], false⟩ : DisplayState).image_data
         then set_pixel_candidate (fun img _ => img) false
                (⟨1, [], false⟩ : DisplayState).orientation 5 6 250 100 10
         else (⟨1, [], false⟩ : DisplayState).image_data) :=
  c10_set_pixel_fresh_frame (fun img _ => img) false ⟨1, [], false⟩ 5 6 250 100 10
    (by decide)

/- ### C5: decoder (`image.py` `_rgb565_to_pil_image`) and the round trips -/

/-- From `image.py` `_rgb565_to_pil_image` per-color step (lines 90-104 and
116-127): split a 16-bit color into its 5/6/5 fields and scale each back to
8 bits as `(r5*255)//31`, `(g6*255)//63`, `(b5*255)//31`. -/
def decode565Color (color : Nat) : RGB :=
  (((color >>> 11) &&& 0x1F) * 255 / 31,
   ((color >>> 5) &&& 0x3F) * 255 / 63,
   (color &&& 0x1F) * 255 / 31)

/-- From `image.py` lines 92-94 / 117-119: `high = data[i]`, `low = data[i+1]`,
`color = (high << 8) | low`. -/
def byteColor (hi lo : Nat) : Nat := (hi <<< 8) ||| lo

/-- From `image.py` `_rgb565_to_pil_image` (lines 71-138), as a pixel function.
For orientation 0x01 the loop appends one RGB triple per byte pair and the
image is built with `Image.frombytes('RGB', (width, height), ...)`, which is
row-major: pixel (x, y) comes from the byte pair at index `(y*width + x)*2`.
For the other orientation the loop walks `for x in range(width-1, -1, -1):
for y in range(height)` with `data_idx` advancing by 2 per pixel and writes
`pixels[x, y]`, so pixel (x, y) is written at step `(width-1-x)*height + y`,
i.e. from the byte pair at index `((width-1-x)*height + y)*2`.  The source's
`if i + 1 < len(...)` guards always hold on a buffer of the expected
`width*height*2` length. -/
def rgb565_to_pil_image (data : List Nat) (width height orientation : Nat)
    (x y : Nat) : RGB :=
  if orientation = 0x01 then
    decode565Color (byteColor (data.getD ((y * width + x) * 2) 0)
      (data.getD ((y * width + x) * 2 + 1) 0))
  else
    decode565Color (byteColor (data.getD (((width - 1 - x) * height + y) * 2) 0)
      (data.getD (((width - 1 - x) * height + y) * 2 + 1) 0))

/-- The 5/6/5 quantization of one RGB888 pixel, as the claim words it: each
channel is truncated to its 5- or 6-bit value and scaled back to 8 bits the
way the decoder does. -/
def quant565 (p : RGB) : RGB :=
  ((p.1 / 8) * 255 / 31, (p.2.1 / 4) * 255 / 63, (p.2.2 / 8) * 255 / 31)

/-- Scaling a 5-bit field to 8 bits and re-quantizing restores it, and the
scaled value is a byte. -/
theorem chan5_roundtrip (v : Nat) (hv : v < 32) :
    v * 255 / 31 / 8 = v ∧ v * 255 / 31 < 256 := by
  have h : ∀ u : Fin 32, u.val * 255 / 31 / 8 = u.val ∧ u.val * 255 / 31 < 256 := by decide
  exact h ⟨v, hv⟩

/-- Scaling a 6-bit field to 8 bits and re-quantizing restores it, and the
scaled value is a byte. -/
theorem chan6_roundtrip (v : Nat) (hv : v < 64) :
    v * 255 / 63 / 4 = v ∧ v * 255 / 63 < 256 := by
  have h : ∀ u : Fin 64, u.val * 255 / 63 / 4 = u.val ∧ u.val * 255 / 63 < 256 := by decide
  exact h ⟨v, hv⟩

theorem byteColor_eq (hi lo : Nat) (hlo : lo < 256) : byteColor hi lo = hi * 256 + lo := by
  unfold byteColor
  rw [Nat.shiftLeft_eq]
  have := lor_disjoint 8 hi lo (by omega)
  rw [Nat.mul_comm (2 ^ 8) hi] at this
  rw [this]
  norm_num

/-- The three 5/6/5 fields extracted by the decoder, in arithmetic form. -/
theorem decode565Color_eq (c : Nat) :
    decode565Color c = ((c / 2048 % 32) * 255 / 31, (c / 32 % 64) * 255 / 63,
      (c % 32) * 255 / 31) := by
  unfold decode565Color
  rw [shiftr11_eq, shiftr5_eq, and_31_eq, and_63_eq, and_31_eq]

/-- Splitting a 16-bit value into its 5/6/5 fields and repacking restores it. -/
theorem split565 (c : Nat) (hc : c < 65536) :
    c / 2048 % 32 * 2048 + c / 32 % 64 * 32 + c % 32 = c := by omega

/-- Re-encoding a decoded 16-bit color gives back its two bytes. -/
theorem decode_encode_color (c : Nat) (hc : c < 65536) :
    encodePixel (decode565Color c) = [c / 256, c % 256] := by
  rw [decode565Color_eq]
  have h5r := chan5_roundtrip (c / 2048 % 32) (Nat.mod_lt _ (by norm_num))
  have h6 := chan6_roundtrip (c / 32 % 64) (Nat.mod_lt _ (by norm_num))
  have h5b := chan5_roundtrip (c % 32) (Nat.mod_lt _ (by norm_num))
  rw [encodePixel_eq _ _ _ h5r.2 h6.2 h5b.2]
  unfold packedColor
  simp only
  rw [h5r.1, h6.1, h5b.1]
  rw [split565 c hc]

/-- Decoding a freshly packed pixel yields its 5/6/5 quantization. -/
theorem encode_decode_color (r g b : Nat) (hr : r < 256) (hg : g < 256) (hb : b < 256) :
    decode565Color (packedColor (r, g, b)) = quant565 (r, g, b) := by
  rw [decode565Color_eq]
  unfold packedColor quant565
  simp only
  have h1 : (r / 8 * 2048 + g / 4 * 32 + b / 8) / 2048 % 32 = r / 8 := by omega
  have h2 : (r / 8 * 2048 + g / 4 * 32 + b / 8) / 32 % 64 = g / 4 := by omega
  have h3 : (r / 8 * 2048 + g / 4 * 32 + b / 8) % 32 = b / 8 := by omega
  rw [h1, h2, h3]

theorem flatMap_nested_rows {α : Type} (F : Nat → List α) (w h : Nat) :
    (List.range h).flatMap (fun y => (List.range w).flatMap (fun x => F (y * w + x)))
      = (List.range (h * w)).flatMap F := by
  induction h with
  | zero => simp
  | succ n ih =>
    have hmul : (n + 1) * w = n * w + w := by ring
    rw [List.range_succ, List.flatMap_append, ih, hmul, List.range_add,
      List.flatMap_append, List.flatMap_map]
    simp

theorem range_reverse_flatMap {α : Type} (G : Nat → List α) (w : Nat) :
    ((List.range w).reverse).flatMap G
      = (List.range w).flatMap (fun j => G (w - 1 - j)) := by
  induction w with
  | zero => rfl
  | succ n ih =>
    conv_lhs => rw [List.range_succ, List.reverse_append]
    conv_rhs => rw [List.range_succ_eq_map]
    simp only [List.reverse_singleton, List.singleton_append, List.flatMap_cons,
      List.flatMap_map]
    rw [ih]
    have h0 : n + 1 - 1 - 0 = n := by omega
    rw [h0]
    congr 1
    exact congrArg _ (funext fun j => congrArg G (by omega))

theorem flatMap_range_succ_cons {α : Type} (f : Nat → List α) (m : Nat) :
    (List.range (m + 1)).flatMap f = f 0 ++ (List.range m).flatMap (fun k => f (k + 1)) := by
  rw [List.range_succ_eq_map, List.flatMap_cons, List.flatMap_map]

theorem flatMap_range_pairs (l : List Nat) (n : Nat) (hl : l.length = 2 * n) :
    (List.range n).flatMap (fun k => [l.getD (2 * k) 0, l.getD (2 * k + 1) 0]) = l := by
  induction n generalizing l with
  | zero =>
    cases l with
    | nil => rfl
    | cons a t => simp at hl
  | succ m ih =>
    match l, hl with
    | a :: b :: t, hl =>
      have ht : t.length = 2 * m := by
        simp at hl
        omega
      have hcong : ∀ k ∈ List.range m,
          [(a :: b :: t).getD (2 * (k + 1)) 0, (a :: b :: t).getD (2 * (k + 1) + 1) 0]
            = [t.getD (2 * k) 0, t.getD (2 * k + 1) 0] := by
        intro k _
        have h2 : 2 * (k + 1) = 2 * k + 1 + 1 := by ring
        rw [h2, List.getD_cons_succ, List.getD_cons_succ,
          List.getD_cons_succ, List.getD_cons_succ]
      rw [flatMap_range_succ_cons]
      rw [List.flatMap_congr hcong, ih t ht]
      rfl

theorem getD_flatMap_pairs (F G : Nat → Nat) (n j : Nat) (hj : j < n) :
    ((List.range n).flatMap (fun k => [F k, G k])).getD (2 * j) 0 = F j
    ∧ ((List.range n).flatMap (fun k => [F k, G k])).getD (2 * j + 1) 0 = G j := by
  induction n generalizing F G j with
  | zero => omega
  | succ m ih =>
    rw [flatMap_range_succ_cons]
    simp only [List.cons_append, List.nil_append]
    cases j with
    | zero => exact ⟨rfl, rfl⟩
    | succ i =>
      have hi : i < m := by omega
      have hih := ih (fun k => F (k + 1)) (fun k => G (k + 1)) i hi
      constructor
      · have h2 : 2 * (i + 1) = 2 * i + 1 + 1 := by ring
        rw [h2, List.getD_cons_succ, List.getD_cons_succ]
        exact hih.1
      · have h3 : 2 * (i + 1) + 1 = 2 * i + 1 + 1 + 1 := by ring
        rw [h3, List.getD_cons_succ, List.getD_cons_succ]
        exact hih.2

/-- Mode-A encoding linearized over the pixel index `k = y*w + x`. -/
theorem encode_mode1 (pixels : Nat → Nat → RGB) (w h : Nat) :
    pil_image_to_rgb565 pixels w h 0x01
      = (List.range (h * w)).flatMap (fun k => encodePixel (pixels (k % w) (k / w))) := by
  unfold pil_image_to_rgb565
  rw [if_neg (by decide)]
  rw [← flatMap_nested_rows (fun m => encodePixel (pixels (m % w) (m / w))) w h]
  refine List.flatMap_congr (fun y hy => ?_)
  refine List.flatMap_congr (fun x hx => ?_)
  have hx' : x < w := List.mem_range.mp hx
  have h1 : (y * w + x) % w = x := by
    rw [Nat.add_comm, Nat.add_mul_mod_self_right]
    exact Nat.mod_eq_of_lt hx'
  have h2 : (y * w + x) / w = y := by
    rw [Nat.add_comm, Nat.add_mul_div_right _ _ (by omega)]
    rw [Nat.div_eq_of_lt hx']
    omega
  rw [h1, h2]

/-- Mode-B encoding linearized over the pixel index `k = (w-1-x)*h + y`. -/
theorem encode_mode2 (pixels : Nat → Nat → RGB) (w h : Nat) :
    pil_image_to_rgb565 pixels w h 0x02
      = (List.range (w * h)).flatMap
          (fun k => encodePixel (pixels (w - 1 - k / h) (k % h))) := by
  unfold pil_image_to_rgb565
  rw [if_pos (show (0x02 : Nat) = Orientation_PORTRAIT from rfl)]
  rw [range_reverse_flatMap]
  rw [← flatMap_nested_rows (fun m => encodePixel (pixels (w - 1 - m / h) (m % h))) h w]
  refine List.flatMap_congr (fun j hj => ?_)
  refine List.flatMap_congr (fun y hy => ?_)
  have hy' : y < h := List.mem_range.mp hy
  have h1 : (j * h + y) / h = j := by
    rw [Nat.add_comm, Nat.add_mul_div_right _ _ (by omega)]
    rw [Nat.div_eq_of_lt hy']
    omega
  have h2 : (j * h + y) % h = y := by
    rw [Nat.add_comm, Nat.add_mul_mod_self_right]
    exact Nat.mod_eq_of_lt hy'
  rw [h1, h2]

/-- Every in-range `getD` of an all-byte buffer is a byte. -/
theorem getD_lt_of_all (l : List Nat) (i : Nat) (hi : i < l.length)
    (hb : ∀ b ∈ l, b < 256) : l.getD i 0 < 256 := by
  rw [List.getD_eq_getElem l 0 hi]
  exact hb _ (List.getElem_mem hi)

/-- Encoding a decoded well-formed buffer restores it byte for byte. -/
theorem encode_decode_buffer (data : List Nat) (w h o : Nat)
    (ho : o = 0x01 ∨ o = 0x02) (hlen : data.length = w * h * 2)
    (hbytes : ∀ b ∈ data, b < 256) :
    pil_image_to_rgb565 (rgb565_to_pil_image data w h o) w h o = data := by
  rcases ho with ho | ho <;> subst ho
  · rw [encode_mode1]
    have hcong : ∀ k ∈ List.range (h * w),
        encodePixel (rgb565_to_pil_image data w h 0x01 (k % w) (k / w))
          = [data.getD (2 * k) 0, data.getD (2 * k + 1) 0] := by
      intro k hk
      have hk' : k < h * w := List.mem_range.mp hk
      have hlen1 : data.length = 2 * (h * w) := by rw [hlen]; ring
      unfold rgb565_to_pil_image
      rw [if_pos rfl]
      have hidx : (k / w * w + k % w) * 2 = 2 * k := by
        have hdm := Nat.div_add_mod k w
        calc (k / w * w + k % w) * 2 = (w * (k / w) + k % w) * 2 := by ring
          _ = k * 2 := by rw [hdm]
          _ = 2 * k := by ring
      rw [hidx]
      have hi1 : 2 * k < data.length := by omega
      have hi2 : 2 * k + 1 < data.length := by omega
      have hhi := getD_lt_of_all data (2 * k) hi1 hbytes
      have hlo := getD_lt_of_all data (2 * k + 1) hi2 hbytes
      rw [byteColor_eq _ _ hlo]
      rw [decode_encode_color _ (by omega)]
      have e1 : (data.getD (2 * k) 0 * 256 + data.getD (2 * k + 1) 0) / 256
          = data.getD (2 * k) 0 := by omega
      have e2 : (data.getD (2 * k) 0 * 256 + data.getD (2 * k + 1) 0) % 256
          = data.getD (2 * k + 1) 0 := by omega
      rw [e1, e2]
    rw [List.flatMap_congr hcong]
    exact flatMap_range_pairs data (h * w) (by rw [hlen]; ring)
  · rw [encode_mode2]
    have hcong : ∀ k ∈ List.range (w * h),
        encodePixel (rgb565_to_pil_image data w h 0x02 (w - 1 - k / h) (k % h))
          = [data.getD (2 * k) 0, data.getD (2 * k + 1) 0] := by
      intro k hk
      have hk' : k < w * h := List.mem_range.mp hk
      have hlen1 : data.length = 2 * (w * h) := by rw [hlen]; ring
      have h0 : 0 < h := by
        rcases Nat.eq_zero_or_pos h with h' | h'
        · subst h'
          simp at hk'
        · exact h'
      have hq : k / h < w := (Nat.div_lt_iff_lt_mul h0).mpr hk'
      unfold rgb565_to_pil_image
      rw [if_neg (by decide)]
      have hsub : w - 1 - (w - 1 - k / h) = k / h := by
        generalize hg : k / h = a at hq ⊢
        omega
      rw [hsub]
      have hidx : (k / h * h + k % h) * 2 = 2 * k := by
        have hdm := Nat.div_add_mod k h
        calc (k / h * h + k % h) * 2 = (h * (k / h) + k % h) * 2 := by ring
          _ = k * 2 := by rw [hdm]
          _ = 2 * k := by ring
      rw [hidx]
      have hi1 : 2 * k < data.length := by omega
      have hi2 : 2 * k + 1 < data.length := by omega
      have hhi := getD_lt_of_all data (2 * k) hi1 hbytes
      have hlo := getD_lt_of_all data (2 * k + 1) hi2 hbytes
      rw [byteColor_eq _ _ hlo]
      rw [decode_encode_color _ (by omega)]
      have e1 : (data.getD (2 * k) 0 * 256 + data.getD (2 * k + 1) 0) / 256
          = data.getD (2 * k) 0 := by omega
      have e2 : (data.getD (2 * k) 0 * 256 + data.getD (2 * k + 1) 0) % 256
          = data.getD (2 * k + 1) 0 := by omega
      rw [e1, e2]
    rw [List.flatMap_congr hcong]
    exact flatMap_range_pairs data (w * h) (by rw [hlen]; ring)

/-- Decoding a freshly encoded frame returns the 5/6/5-quantized pixels. -/
theorem decode_encode_frame (pixels : Nat → Nat → RGB) (w h o x y : Nat)
    (ho : o = 0x01 ∨ o = 0x02)
    (hpix : ∀ i j, i < w → j < h →
      (pixels i j).1 < 256 ∧ (pixels i j).2.1 < 256 ∧ (pixels i j).2.2 < 256)
    (hx : x < w) (hy : y < h) :
    rgb565_to_pil_image (pil_image_to_rgb565 pixels w h o) w h o x y
      = quant565 (pixels x y) := by
  rcases ho with ho | ho <;> subst ho
  · rw [encode_mode1]
    have hpairs : ∀ k ∈ List.range (h * w),
        encodePixel (pixels (k % w) (k / w))
          = [packedColor (pixels (k % w) (k / w)) / 256,
             packedColor (pixels (k % w) (k / w)) % 256] := by
      intro k hk
      have hk' : k < h * w := List.mem_range.mp hk
      have hw0 : 0 < w := by omega
      have hkw : k % w < w := Nat.mod_lt _ hw0
      have hkh : k / w < h := (Nat.div_lt_iff_lt_mul hw0).mpr hk'
      obtain ⟨h1, h2, h3⟩ := hpix _ _ hkw hkh
      rcases hp : pixels (k % w) (k / w) with ⟨r, gg, bb⟩
      rw [hp] at h1 h2 h3
      exact encodePixel_eq r gg bb h1 h2 h3
    rw [List.flatMap_congr hpairs]
    unfold rgb565_to_pil_image
    rw [if_pos rfl]
    have hj : y * w + x < h * w := by
      have h1 : y * w + x < y * w + w := by omega
      have h2 : y * w + w = (y + 1) * w := by ring
      have h3 : (y + 1) * w ≤ h * w := Nat.mul_le_mul_right w (by omega)
      omega
    have hfx : (y * w + x) * 2 = 2 * (y * w + x) := by ring
    rw [hfx]
    have hgd :
        ((List.range (h * w)).flatMap (fun k =>
            [packedColor (pixels (k % w) (k / w)) / 256,
             packedColor (pixels (k % w) (k / w)) % 256])).getD (2 * (y * w + x)) 0
          = packedColor (pixels ((y * w + x) % w) ((y * w + x) / w)) / 256
        ∧ ((List.range (h * w)).flatMap (fun k =>
            [packedColor (pixels (k % w) (k / w)) / 256,
             packedColor (pixels (k % w) (k / w)) % 256])).getD (2 * (y * w + x) + 1) 0
          = packedColor (pixels ((y * w + x) % w) ((y * w + x) / w)) % 256 :=
      getD_flatMap_pairs _ _ (h * w) (y * w + x) hj
    rw [hgd.1, hgd.2]
    have hjx : (y * w + x) % w = x := by
      rw [Nat.add_comm, Nat.add_mul_mod_self_right]
      exact Nat.mod_eq_of_lt hx
    have hjy : (y * w + x) / w = y := by
      rw [Nat.add_comm, Nat.add_mul_div_right _ _ (by omega)]
      rw [Nat.div_eq_of_lt hx]
      omega
    rw [hjx, hjy]
    obtain ⟨h1, h2, h3⟩ := hpix x y hx hy
    rcases hp : pixels x y with ⟨r, gg, bb⟩
    rw [hp] at h1 h2 h3
    have hmod : packedColor (r, gg, bb) % 256 < 256 := Nat.mod_lt _ (by norm_num)
    rw [byteColor_eq _ _ hmod]
    have hdm : packedColor (r, gg, bb) / 256 * 256 + packedColor (r, gg, bb) % 256
        = packedColor (r, gg, bb) := by omega
    rw [hdm]
    exact encode_decode_color r gg bb h1 h2 h3
  · rw [encode_mode2]
    have h0 : 0 < h := by omega
    have hw0 : 0 < w := by omega
    have hpairs : ∀ k ∈ List.range (w * h),
        encodePixel (pixels (w - 1 - k / h) (k % h))
          = [packedColor (pixels (w - 1 - k / h) (k % h)) / 256,
             packedColor (pixels (w - 1 - k / h) (k % h)) % 256] := by
      intro k hk
      have hkx : w - 1 - k / h < w := by
        generalize k / h = a
        omega
      have hkh : k % h < h := Nat.mod_lt _ h0
      obtain ⟨h1, h2, h3⟩ := hpix _ _ hkx hkh
      rcases hp : pixels (w - 1 - k / h) (k % h) with ⟨r, gg, bb⟩
      rw [hp] at h1 h2 h3
      exact encodePixel_eq r gg bb h1 h2 h3
    rw [List.flatMap_congr hpairs]
    unfold rgb565_to_pil_image
    rw [if_neg (by decide)]
    have hj : (w - 1 - x) * h + y < w * h := by
      have h1 : (w - 1 - x) * h + y < (w - 1 - x) * h + h := by omega
      have h2 : (w - 1 - x) * h + h = (w - 1 - x + 1) * h := by ring
      have h3 : (w - 1 - x + 1) * h ≤ w * h := Nat.mul_le_mul_right h (by omega)
      omega
    have hfx : ((w - 1 - x) * h + y) * 2 = 2 * ((w - 1 - x) * h + y) := by ring
    rw [hfx]
    have hgd :
        ((List.range (w * h)).flatMap (fun k =>
            [packedColor (pixels (w - 1 - k / h) (k % h)) / 256,
             packedColor (pixels (w - 1 - k / h) (k % h)) % 256])).getD
            (2 * ((w - 1 - x) * h + y)) 0
          = packedColor (pixels (w - 1 - ((w - 1 - x) * h + y) / h)
              (((w - 1 - x) * h + y) % h)) / 256
        ∧ ((List.range (w * h)).flatMap (fun k =>
            [packedColor (pixels (w - 1 - k / h) (k % h)) / 256,
             packedColor (pixels (w - 1 - k / h) (k % h)) % 256])).getD
            (2 * ((w - 1 - x) * h + y) + 1) 0
          = packedColor (pixels (w - 1 - ((w - 1 - x) * h + y) / h)
              (((w - 1 - x) * h + y) % h)) % 256 :=
      getD_flatMap_pairs _ _ (w * h) ((w - 1 - x) * h + y) hj
    rw [hgd.1, hgd.2]
    have hjy : ((w - 1 - x) * h + y) % h = y := by
      rw [Nat.add_comm, Nat.add_mul_mod_self_right]
      exact Nat.mod_eq_of_lt hy
    have hjd : ((w - 1 - x) * h + y) / h = w - 1 - x := by
      rw [Nat.add_comm, Nat.add_mul_div_right _ _ h0]
      rw [Nat.div_eq_of_lt hy]
      omega
    rw [hjy, hjd]
    have hxx : w - 1 - (w - 1 - x) = x := by omega
    rw [hxx]
    obtain ⟨h1, h2, h3⟩ := hpix x y hx hy
    rcases hp : pixels x y with ⟨r, gg, bb⟩
    rw [hp] at h1 h2 h3
    have hmod : packedColor (r, gg, bb) % 256 < 256 := Nat.mod_lt _ (by norm_num)
    rw [byteColor_eq _ _ hmod]
    have hdm : packedColor (r, gg, bb) / 256 * 256 + packedColor (r, gg, bb) % 256
        = packedColor (r, gg, bb) := by omega
    rw [hdm]
    exact encode_decode_color r gg bb h1 h2 h3

/-- C5: the decoder is the exact inverse of the encoder modulo 5/6/5
quantization — for every well-formed byte buffer `encode (decode b) = b`,
and for every byte-valued frame and orientation in {0x01, 0x02},
`decode (encode F O) O` is `F` with each channel 5/6/5-quantized. -/
theorem c5_codec_roundtrip :
    (∀ (data : List Nat) (w h o : Nat), (o = 0x01 ∨ o = 0x02) →
      data.length = w * h * 2 → (∀ b ∈ data, b < 256) →
      pil_image_to_rgb565 (rgb565_to_pil_image data w h o) w h o = data)
    ∧ (∀ (pixels : Nat → Nat → RGB) (w h o x y : Nat), (o = 0x01 ∨ o = 0x02) →
      (∀ i j, i < w → j < h →
        (pixels i j).1 < 256 ∧ (pixels i j).2.1 < 256 ∧ (pixels i j).2.2 < 256) →
      x < w → y < h →
      rgb565_to_pil_image (pil_image_to_rgb565 pixels w h o) w h o x y
        = quant565 (pixels x y)) :=
  ⟨encode_decode_buffer, decode_encode_frame⟩

/-- Closed instance of `c5_codec_roundtrip` on a 1x1 buffer and a 1x1
frame. -/
theorem c5_codec_roundtrip_witness :
    pil_image_to_rgb565 (rgb565_to_pil_image [171, 205] 1 1 0x01) 1 1 0x01 = [171, 205]
    ∧ rgb565_to_pil_image (pil_image_to_rgb565 (fun _ _ => (250, 100, 10)) 1 1 0x02)
        1 1 0x02 0 0 = quant565 (250, 100, 10) :=
  ⟨c5_codec_roundtrip.1 [171, 205] 1 1 0x01 (Or.inl rfl) (by decide) (by decide),
   c5_codec_roundtrip.2 (fun _ _ => (250, 100, 10)) 1 1 0x02 0 0 (Or.inr rfl)
     (fun _ _ _ _ =>
       (by decide : (250 : Nat) < 256 ∧ (100 : Nat) < 256 ∧ (10 : Nat) < 256))
     (by decide) (by decide)⟩
